import Mathlib

/-!
Shallow embedding of the progress-rendering core of the cereja repository
(src/cereja/display.py, with a near-identical stale copy in
src/lab/console.py).  Numbers are embedded as rationals, Python strings as
Lean strings, and the mutable ProgressBase object as an explicit Session
record threaded through the operations.  Console output and thread spawning
are modelled as an event trace returned next to the new state.

The helper functions of cereja.utils (percent, proportional, estimate, fill,
time_format) and cereja.unicode / cereja.concurrently are code of the
repository that is not under src/; those definitions are modelled from the
spec and marked as such in their doc comments.
-/

namespace Cereja

/-- Python string repetition by a natural number: s * n. -/
def strRepeat (s : String) : Nat → String
  | 0 => ""
  | n + 1 => s ++ strRepeat s n

/-- Python string repetition s * n for an integer n: a negative count gives
the empty string, exactly as in CPython. -/
def pyRepeat (s : String) (n : Int) : String :=
  strRepeat s n.toNat

/-- Python int() applied to a number: truncation toward zero.  Rat.floor is
the computable floor of Batteries. -/
def pyInt (q : ℚ) : ℤ :=
  if q < 0 then -(Rat.floor (-q)) else Rat.floor q

/-- Literal fragments of the renderers, named so they can be reused. -/
def dotS : String := "."

/-- A single space, the fill character of the Loading field. -/
def spaceS : String := " "

/-- The two-space blanks string of State.blanks and __StateBar.display. -/
def dblSpaceS : String := "  "

/-- The bar fill character '='. -/
def eqBarS : String := "="

/-- The zero-padding character of __StatePercent.display. -/
def zeroS : String := "0"

/-- The fragment separator of _states_view. -/
def sepS : String := " - "

/-- The separator used to render the added-states tuple in the log line. -/
def commaS : String := ", "

/-- The path separator for os.path.basename. -/
def slashS : String := "/"

/-- Python str.strip(chars): remove from both ends every character contained
in chars (used by __StateAwaiting._clean with chars = the delimiters). -/
def pyStrip (s : String) (chars : String) : String :=
  let isIn := fun c => (chars.toList).contains c
  String.mk (((s.toList.dropWhile isIn).reverse.dropWhile isIn).reverse)

/-- Python os.path.basename for forward-slash paths (used by
ProgressBase.__exit__ on the traceback file name). -/
def pyBasename (p : String) : String :=
  (p.splitOn slashS).getLastD p

/-- Modelled from the spec: cereja.utils.percent is not under src/.
Section 4.1: percent = (current / max) * 100, no internal clamping.
Rational division by zero yields 0 here; the claims only use positive max. -/
def percent (v maxValue : ℚ) : ℚ :=
  v / maxValue * 100

/-- Modelled from the spec: cereja.utils.proportional is not under src/.
Section 4.1 (Bar): filled length = floor(percent/100 * W); the floor is taken
by the caller's int(), so proportional itself is percent/100 * factor. -/
def proportional (value factor : ℚ) : ℚ :=
  value / 100 * factor

/-- Modelled from the spec: cereja.utils.estimate is not under src/.
Section 4.1 (Time): estimated total duration elapsed * max/current, treated
as 0 when current == 0 (guarded division). -/
def estimate (current maxValue timeIt : ℚ) : ℚ :=
  if current = 0 then 0 else timeIt * maxValue / current

/-- Modelled from the spec: cereja.utils.fill is not under src/.
Section 4.1 (Loading): the animation value is rendered inside a fixed-width
field, padded to constant width with the given character. -/
def fill (value : String) (size : Nat) (withChar : String) : String :=
  value ++ strRepeat withChar (size - value.length)

/-- Two-digit zero padding of a natural number, helper for timeFormat. -/
def pad2 (n : Nat) : String :=
  if n < 10 then zeroS ++ Nat.repr n else Nat.repr n

/-- Modelled from the spec: cereja.utils.time_format is not under src/ and
the spec does not pin its exact format ("the formatted estimate"); a
HH:MM:SS rendering of the whole seconds is used.  No claim depends on the
format itself. -/
def timeFormat (t : ℚ) : String :=
  let secs := (pyInt t).toNat
  pad2 (secs / 3600) ++ ":" ++ pad2 (secs % 3600 / 60) ++ ":" ++ pad2 (secs % 60)

/-- Embedding of CPython float formatting with format spec ".2f" for the
nonnegative values the claims quantify over: the value rounded to the
nearest hundredth (ties upward) and printed with exactly two decimals. -/
def toFixed2 (q : ℚ) : String :=
  let h : Nat := (Rat.floor (q * 100 + 1 / 2)).toNat
  let ip := h / 100
  let fr := h % 100
  Nat.repr ip ++ dotS ++ (if fr < 10 then zeroS ++ Nat.repr fr else Nat.repr fr)

/-- The metrics tuple every state render function receives
(display.py State.display/done signature): current_value, max_value,
current_percent, time_it, n_times. -/
structure Metrics where
  current : ℚ
  maxValue : ℚ
  percentV : ℚ
  timeIt : ℚ
  nTimes : Nat
deriving DecidableEq

/-- The closed set of state variants (display.py __StateLoading,
__StateAwaiting, __StateBar, __StatePercent, __StateTime; identity is by
variant, the instances are singletons). -/
inductive StateTag where
  | loading
  | awaiting
  | bar
  | percentSt
  | time
deriving DecidableEq

/-- Delimiters "[]" shared by Loading and Bar (left_right_delimiter). -/
def delims : String := "[]"

/-- Render of __StateLoading.display: idx = n_times % 3, the first idx+1 dots of the
sequence, filled to width 3 with spaces, wrapped in the delimiters. -/
def loadingDisplay (m : Metrics) : String :=
  let idx := m.nTimes % 3
  let value := strRepeat dotS (idx + 1)
  let filled := fill value 3 spaceS
  "[" ++ filled ++ "]"

/-- Render of __StateLoading.done: the default char repeated to the field size inside
the delimiters. -/
def loadingDone (_m : Metrics) : String :=
  "[" ++ strRepeat dotS 3 ++ "]"

/-- Render of __StateAwaiting.display: the Loading rendering with the delimiters
stripped and the literal word Awaiting prefixed. -/
def awaitingDisplay (m : Metrics) : String :=
  "Awaiting" ++ pyStrip (loadingDisplay m) delims

/-- Render of __StateAwaiting.done: as display, with " Done!" suffixed. -/
def awaitingDone (m : Metrics) : String :=
  "Awaiting" ++ pyStrip (loadingDone m) delims ++ " Done!"

/-- Render of __StateBar.display: prop_max_size = int(proportional(percent, 30)), then
'[' + '='*filled + '>' + '  '*(30-filled-1) + ']'.  The blanks string in the
source is two spaces, and a negative repeat count yields the empty string. -/
def barDisplay (m : Metrics) : String :=
  let fil := pyInt (proportional m.percentV 30)
  "[" ++ pyRepeat eqBarS fil ++ ">" ++ pyRepeat dblSpaceS (30 - fil - 1) ++ "]"

/-- Render of __StateBar.done: '[' + '='*30 + ']', no arrow. -/
def barDone (_m : Metrics) : String :=
  "[" ++ strRepeat eqBarS 30 ++ "]"

/-- Render of __StatePercent.display: value = f-string of percent with ".2f", zeros =
'0' * (6 - len(value)), result zeros + value + '%'. -/
def percentDisplay (m : Metrics) : String :=
  let value := toFixed2 m.percentV
  pyRepeat zeroS (6 - (value.length : Int)) ++ value ++ "%"

/-- Render of __StatePercent.done: f-string of the integer 100 with ".2f" plus '%'. -/
def percentDone (_m : Metrics) : String :=
  toFixed2 100 ++ "%"

/-- The clock glyph of __StateTime shifted by an animation index
(cereja.unicode.Unicode addition on the base code point U+1F55C). -/
def clockStr (n : Nat) : String :=
  String.singleton (Char.ofNat (0x1F55C + n))

/-- Render of __StateTime.display: the estimate, a clock glyph indexed by
int(proportional(int(percent), 12)), the formatted estimate, double-space
blanks to the field size 11, and the suffix " estimated". -/
def timeDisplay (m : Metrics) : String :=
  let est := estimate m.current m.maxValue m.timeIt
  let idx := pyInt (proportional ((pyInt m.percentV : ℤ) : ℚ) 12)
  let value := clockStr idx.toNat ++ " " ++ timeFormat est
  value ++ strRepeat dblSpaceS (11 - value.length - 1) ++ " estimated"

/-- Render of __StateTime.done: the unshifted clock glyph, the actual elapsed time and
the suffix " total". -/
def timeDone (m : Metrics) : String :=
  clockStr 0 ++ " " ++ timeFormat m.timeIt ++ " total"

/-- Dispatch of State.display over the variant set. -/
def tagDisplay : StateTag → Metrics → String
  | .loading, m => loadingDisplay m
  | .awaiting, m => awaitingDisplay m
  | .bar, m => barDisplay m
  | .percentSt, m => percentDisplay m
  | .time, m => timeDisplay m

/-- Dispatch of State.done over the variant set. -/
def tagDone : StateTag → Metrics → String
  | .loading, m => loadingDone m
  | .awaiting, m => awaitingDone m
  | .bar, m => barDone m
  | .percentSt, m => percentDone m
  | .time, m => timeDone m

/-- Short name of a variant, standing in for the class name in the
"Added new states!" log line. -/
def stateName : StateTag → String
  | .loading => "Loading"
  | .awaiting => "Awaiting"
  | .bar => "Bar"
  | .percentSt => "Percent"
  | .time => "Time"

/-- An observable console or lifecycle event.  start, advance and stop are
the lifecycle calls the sequence adapter makes on its ProgressBase; log and
error are ConsoleBase.log / ConsoleBase.error lines. -/
inductive Ev where
  | start
  | advance (value : ℚ)
  | stop
  | log (msg : String)
  | error (msg : String)
deriving DecidableEq

/-- The mutable attributes of ProgressBase (display.py __init__): n_times,
started, _awaiting_update, started_time, _states and max_value.  The console
object and the awaiting thread handle are replaced by the event trace. -/
structure Session where
  n_times : Nat
  started : Bool
  awaiting : Bool
  startedTime : Option ℚ
  states : List StateTag
  max_value : ℚ
deriving DecidableEq

/-- ProgressBase.default_states: (StateBar, StatePercent, StateTime). -/
def defaultStates : List StateTag := [.bar, .percentSt, .time]

/-- ProgressBase.stop: a no-op unless started; otherwise clears the awaiting
flag (stopping the animator thread) and the started flag, and disables the
console. -/
def stopFn (s : Session) : Session :=
  if s.started then { s with awaiting := false, started := false } else s

/-- The unconditional body of ProgressBase.start: sets the awaiting flag,
stamps started_time with the current time, sets started, re-arms the console
and the awaiting thread, and resets n_times to 0. -/
def startBody (now : ℚ) (s : Session) : Session :=
  { s with awaiting := true, startedTime := some now, started := true, n_times := 0 }

/-- ProgressBase.start: when already started it first runs restart()
(stop() then start() on the no-longer-started state) and then, having no
early return, runs its own body as well; otherwise just the body.  On the
session record the nested body application is written out explicitly. -/
def startFn (now : ℚ) (s : Session) : Session :=
  if s.started then startBody now (startBody now (stopFn s)) else startBody now s

/-- ProgressBase.restart: stop() then start(). -/
def restartFn (now : ℚ) (s : Session) : Session :=
  startFn now (stopFn s)

/-- The metrics tuple ProgressBase._states_view builds for a progress value:
current value, max value, percent_(value), elapsed time against started_time
(a falsy started_time makes the elapsed time 0, as time.time() is then used
on both sides) and the already-incremented n_times. -/
def viewMetrics (now : ℚ) (s : Session) (v : ℚ) : Metrics :=
  { current := v
    maxValue := s.max_value
    percentV := percent v s.max_value
    timeIt := match s.startedTime with
      | none => 0
      | some t => if t = 0 then 0 else now - t
    nTimes := s.n_times + 1 }

/-- The "Done!" marker _states_view appends, with the check-mark glyph of
cereja.unicode (U+2705). -/
def doneMarker : String := "Done! " ++ "✅"

/-- ProgressBase._states_view: clears the awaiting flag, increments n_times,
builds the metrics, and renders every state; when for_value >= max_value - 1
the done renderers are used and the "Done!" marker is appended; fragments
are joined with " - ".  (TaskList of cereja.concurrently is not under src/;
per spec section 2 it renders every state and joins the fragments in state
order, so it is modelled as a map.) -/
def statesView (now : ℚ) (s : Session) (v : ℚ) : Session × String :=
  let s' := { s with awaiting := false, n_times := s.n_times + 1 }
  let m := viewMetrics now s v
  let frags := s.states.map (fun t =>
    if s.max_value - 1 ≤ v then tagDone t m else tagDisplay t m)
  (s', String.intercalate sepS (frags ++ if s.max_value - 1 ≤ v then [doneMarker] else []))

/-- ProgressBase._filter_and_add_state: keep the passed variants not already
present, and when any survive append them all and log one
"Added new states!" line (the Python repr of the filtered tuple is
abbreviated to the variant names; the claims only count the log lines). -/
def filterAndAddState (new : List StateTag) (s : Session) : Session × List Ev :=
  let filtered := new.filter (fun t => !(s.states.contains t))
  if filtered.isEmpty then (s, [])
  else ({ s with states := s.states ++ filtered },
        [Ev.log ("Added new states! " ++ String.intercalate commaS (filtered.map stateName))])

/-- ProgressBase.add_state: skip None, wrap a lone state into a tuple, and
delegate to _filter_and_add_state; the Option stands for the None default. -/
def add_state (sts : Option (List StateTag)) (s : Session) : Session × List Ev :=
  match sts with
  | none => (s, [])
  | some l => filterAndAddState l s

/-- ProgressBase.__init__ (display.py): n_times 0, not started, awaiting
flag set, no started_time, the default states, then add_state on the states
argument and the max_value argument (the max is assigned after add_state,
which never reads it). -/
def initSession (maxValue : ℚ) (sts : Option (List StateTag)) : Session × List Ev :=
  add_state sts
    { n_times := 0
      started := false
      awaiting := true
      startedTime := none
      states := defaultStates
      max_value := maxValue }

/-- A Python value passed to update_max_value: a number (int, float and
complex all pass the isinstance check and compare with !=) or a non-numeric
value, represented by a string. -/
inductive PVal where
  | num (q : ℚ)
  | str (t : String)
deriving DecidableEq

/-- The numeric branch of ProgressBase.update_max_value: a value equal to
the current max does nothing; a different one runs restart() and then
assigns the new max. -/
def updateMaxNum (now : ℚ) (q : ℚ) (s : Session) : Session :=
  if q = s.max_value then s else { restartFn now s with max_value := q }

/-- ProgressBase.update_max_value: a non-numeric argument raises
Exception("Current value ... isn't valid.") before any state change; a
numeric one (with no sign check in the source) takes the numeric branch. -/
def update_max_value (now : ℚ) (v : PVal) (s : Session) : Except String Session :=
  match v with
  | .num q => .ok (updateMaxNum now q s)
  | .str t => .error ("Current value " ++ t ++ " isn't valid.")

/-- ProgressBase.__getitem__ on a tuple of positions: raises
IndexError(max ... isn't in progress) when the largest position exceeds the
state count, and otherwise keeps the positions strictly below the count
(the comprehension's guard).  The positions are naturals; Python's max of a
nonempty tuple is the fold of Nat.max. -/
def getitemTuple (s : Session) (idxs : List Nat) : Except String (List StateTag) :=
  if idxs.foldl Nat.max 0 > s.states.length then
    .error (Nat.repr (idxs.foldl Nat.max 0) ++ " isn't in progress")
  else
    .ok (idxs.filterMap (fun i => if i < s.states.length then s.states.get? i else none))

/-- The exception reaching ProgressBase.__exit__: traceback file and line,
the message, and whether the exception is a DeprecationWarning. -/
structure ExcInfo where
  file : String
  line : Nat
  msg : String
  deprecation : Bool
deriving DecidableEq

/-- The error line __exit__ writes: basename(file):line: message. -/
def exitErrMsg (e : ExcInfo) : String :=
  pyBasename e.file ++ ":" ++ Nat.repr e.line ++ ": " ++ e.msg

/-- ProgressBase.__exit__: an Exception that is not a DeprecationWarning is
written through the console's error sink, then stop() runs on every path;
the method returns None, so the exception always propagates (the returned
Bool is the suppression flag, always false). -/
def exitFn (s : Session) (e : Option ExcInfo) : Session × List Ev × Bool :=
  let evs := match e with
    | some ex => if ex.deprecation then [Ev.stop] else [Ev.error (exitErrMsg ex), Ev.stop]
    | none => [Ev.stop]
  (stopFn s, evs, false)

/-- The generator body of ProgressIterator.__next__, k remaining next()
calls: a call on the exhausted sequence runs stop() and ends; otherwise the
guarded show_progress(for_value = index) runs (its console write is the
advance event) and the element is yielded.  There is no try/finally, so
abandoning the generator (k reaching 0 with elements left) runs nothing
further. -/
def genLoop {α : Type} (now : ℚ) (s : Session) (xs : List α) (i : Nat) (k : Nat) :
    List Ev × Session × List α :=
  match k, xs with
  | 0, _ => ([], s, [])
  | _ + 1, [] => ([Ev.stop], stopFn s, [])
  | k + 1, x :: rest =>
    let p := if s.started
      then ([Ev.advance (i : ℚ)], (statesView now s (i : ℚ)).1)
      else (([] : List Ev), s)
    let r := genLoop now p.2 rest (i + 1) k
    (p.1 ++ r.1, r.2.1, x :: r.2.2)

/-- Consuming the ProgressIterator generator with k next() calls: the first
call runs progress.start() and enters the loop; zero calls run nothing
(generator bodies are lazy).  ProgressIterator.__init__ additionally runs
update_max_value(len(sequence)) on the wrapped session before any
consumption; that call only adjusts the session (updateMaxNum) and is not
one of the three lifecycle events of the generator body counted here. -/
def runGen {α : Type} (now : ℚ) (s : Session) (xs : List α) (k : Nat) :
    List Ev × Session × List α :=
  match k with
  | 0 => ([], s, [])
  | k + 1 => let r := genLoop now (startFn now s) xs 0 (k + 1)
             (Ev.start :: r.1, r.2)

/-- A freshly constructed session with the default arguments: the three
default states and max value 100. -/
def demoSession : Session := (initSession 100 none).1

/-- A session built through the public constructor with the states argument
(StateLoading, StateLoading): the batch is filtered only against the
already-present states, so the variant ends up twice. -/
def dupSession : Session := (initSession 100 (some [.loading, .loading])).1

/-- Metrics at zero percent, the concrete rendering input used by the
counterexamples. -/
def mZero : Metrics :=
  { current := 0, maxValue := 100, percentV := 0, timeIt := 0, nTimes := 1 }

/-- The Bar display exactly as the claim words it (single spaces between the
arrow and the closing delimiter), kept next to barDisplay for the
refinement comparison; the source's blanks string is two spaces instead. -/
def claimedBarDisplay (p : ℚ) : String :=
  let fil := (Rat.floor (p / 100 * 30)).toNat
  "[" ++ strRepeat eqBarS fil ++ ">" ++ strRepeat spaceS (30 - fil - 1) ++ "]"

/-- A non-numeric Python value for the update_max_value counterexamples. -/
def nonNumS : String := "abc"

/-! Helper lemmas shared by the claim theorems. -/

/-- Batteries' computable Rat.floor agrees with the Int.floor of the
FloorRing instance. -/
theorem ratFloor_eq (q : ℚ) : Rat.floor q = ⌊q⌋ := by
  rw [Rat.floor_def', Rat.floor_def]

/-- Length of a repeated string. -/
theorem strRepeat_length (s : String) (n : Nat) :
    (strRepeat s n).length = n * s.length := by
  induction n with
  | zero => simp [strRepeat]
  | succ n ih => simp [strRepeat, ih, Nat.succ_mul, Nat.add_comm]

/-- Session start always leaves the started flag set. -/
theorem startFn_started (now : ℚ) (s : Session) : (startFn now s).started = true := by
  unfold startFn startBody
  cases s.started <;> simp

/-- Rendering a progress view does not change the started flag. -/
theorem statesView_started (now : ℚ) (s : Session) (v : ℚ) :
    ((statesView now s v).1).started = s.started := rfl

/-! Theorems settling the claims. -/

/-- C1.  For a session with positive max value and any state list, a
progress view at a value of at least max - 1 renders every state's done
fragment with the "Done!" marker appended, joined with " - "; at a value of
at most max - 2 it renders every state's display fragment only, with
nothing appended. -/
theorem states_view_done_threshold (now : ℚ) (s : Session) (v : ℚ)
    (hpos : 0 < s.max_value) :
    (s.max_value - 1 ≤ v →
      (statesView now s v).2 = String.intercalate sepS
        (s.states.map (fun t => tagDone t (viewMetrics now s v)) ++ [doneMarker])) ∧
    (v ≤ s.max_value - 2 →
      (statesView now s v).2 = String.intercalate sepS
        (s.states.map (fun t => tagDisplay t (viewMetrics now s v)))) := by
  constructor
  · intro h
    simp only [statesView, if_pos h]
  · intro h
    have hn : ¬ (s.max_value - 1 ≤ v) := by
      intro hc
      have : s.max_value - 2 < s.max_value - 1 := by linarith
      linarith
    simp only [statesView, if_neg hn, List.append_nil]

/-- Witness for C1: a fresh session with max 10; the view at 9 uses the
done fragments plus the marker, the view at 8 uses the display fragments. -/
theorem states_view_done_threshold_witness :
    (0 : ℚ) < demoSession.max_value ∧
    ((statesView 0 demoSession 99).2 = String.intercalate sepS
      (demoSession.states.map (fun t => tagDone t (viewMetrics 0 demoSession 99)) ++ [doneMarker])) ∧
    ((statesView 0 demoSession 98).2 = String.intercalate sepS
      (demoSession.states.map (fun t => tagDisplay t (viewMetrics 0 demoSession 98)))) := by
  have hpos : (0 : ℚ) < demoSession.max_value := by with_unfolding_all decide
  refine ⟨hpos, ?_, ?_⟩
  · exact (states_view_done_threshold 0 demoSession 99 hpos).1 (by with_unfolding_all decide)
  · exact (states_view_done_threshold 0 demoSession 98 hpos).2 (by with_unfolding_all decide)

/-- C4.  update_max_value with the current max is a no-op on the whole
session; any different value (the claim speaks of positive ones) first runs
restart, whose result carries call count 0, and then installs the new max. -/
theorem update_max_value_restart (now q : ℚ) (s : Session) :
    (q = s.max_value → updateMaxNum now q s = s) ∧
    (q ≠ s.max_value → 0 < q →
      updateMaxNum now q s = { restartFn now s with max_value := q } ∧
      (restartFn now s).n_times = 0) := by
  refine ⟨fun h => by simp [updateMaxNum, h], fun h _ => ⟨by simp [updateMaxNum, h], ?_⟩⟩
  unfold restartFn startFn stopFn startBody
  cases hs : s.started <;> simp [hs]

/-- Witness for C4: on the fresh session, max 100 is a no-op and max 7
restarts and installs 7. -/
theorem update_max_value_restart_witness :
    updateMaxNum 0 100 demoSession = demoSession ∧
    (updateMaxNum 0 7 demoSession = { restartFn 0 demoSession with max_value := 7 } ∧
      (restartFn 0 demoSession).n_times = 0) := by
  constructor
  · exact (update_max_value_restart 0 100 demoSession).1 (by with_unfolding_all decide)
  · exact (update_max_value_restart 0 7 demoSession).2
      (by with_unfolding_all decide) (by with_unfolding_all decide)

/-- C8.  A non-deprecation exception unwinding through the scoped session is
reported through the console error sink before the stop call, the session
ends not started, and the exception is never suppressed; a
DeprecationWarning skips the error report but still stops the session and
still propagates. -/
theorem exit_reports_before_stop (s : Session) (f : String) (l : Nat) (m : String) :
    exitFn s (some ⟨f, l, m, false⟩)
      = (stopFn s, [Ev.error (exitErrMsg ⟨f, l, m, false⟩), Ev.stop], false) ∧
    exitFn s (some ⟨f, l, m, true⟩) = (stopFn s, [Ev.stop], false) ∧
    (stopFn s).started = false := by
  refine ⟨rfl, rfl, ?_⟩
  unfold stopFn
  cases hs : s.started <;> simp [hs]

/-- C9 (code bug record).  On the fresh three-state session, the tuple read
(0, 3) silently drops the out-of-range position 3 and returns only state 0,
while (0, 4) raises the IndexError; position 3 is out of range because the
session has exactly 3 states. -/
theorem getitem_tuple_boundary :
    getitemTuple demoSession [0, 3] = Except.ok [StateTag.bar] ∧
    getitemTuple demoSession [0, 4] = Except.error ("4 isn't in progress") ∧
    demoSession.states.length = 3 :=
  ⟨rfl, rfl, rfl⟩

/-- C10.  Constructing a session with an explicit state list never replaces
the defaults: the state sequence is the three defaults Bar, Percent, Time in
that order followed by the passed variants not already among them, and with
any states argument at all the sequence still begins with the defaults. -/
theorem init_keeps_defaults (mv : ℚ) (sts : List StateTag) :
    (initSession mv (some sts)).1.states
      = defaultStates ++ sts.filter (fun t => !(defaultStates.contains t)) ∧
    defaultStates = [StateTag.bar, StateTag.percentSt, StateTag.time] ∧
    ∀ o : Option (List StateTag), (initSession mv o).1.states.take 3 = defaultStates := by
  have hmain : ∀ l : List StateTag,
      (initSession mv (some l)).1.states
        = defaultStates ++ l.filter (fun t => !(defaultStates.contains t)) := by
    intro l
    simp only [initSession, add_state, filterAndAddState]
    by_cases h : (l.filter (fun t => !(defaultStates.contains t))).isEmpty
    · rw [if_pos h]
      rw [List.isEmpty_iff.1 h]
      simp
    · rw [if_neg h]
  refine ⟨hmain sts, rfl, fun o => ?_⟩
  match o with
  | none => rfl
  | some l =>
    rw [hmain l]
    exact List.take_left defaultStates _

/-- C3 counterexample.  update_max_value(0) on the fresh session does not
fail: the zero is accepted, the session is restarted (started becomes true,
call count 0) and the max value becomes 0, refuting both the failure and the
state-unchanged halves of the claim for a non-positive numeric argument. -/
theorem update_max_value_zero_accepted :
    (update_max_value 0 (PVal.num 0) demoSession).map
        (fun s => (s.max_value, s.started, s.n_times))
      = Except.ok ((0 : ℚ), true, 0) := by
  with_unfolding_all rfl

/-- C3 amended.  Only a non-numeric argument makes update_max_value fail
(with the generic "isn't valid" exception raised before any state change);
every numeric argument, zero and negative ones included, is accepted: equal
to the current max it is a no-op, different it restarts and installs the new
max. -/
theorem update_max_value_validation (now : ℚ) (t : String) (q : ℚ) (s : Session) :
    update_max_value now (PVal.str t) s
      = Except.error ("Current value " ++ t ++ " isn't valid.") ∧
    (q ≠ s.max_value →
      update_max_value now (PVal.num q) s
        = Except.ok { restartFn now s with max_value := q }) ∧
    update_max_value now (PVal.num s.max_value) s = Except.ok s := by
  refine ⟨rfl, fun h => ?_, ?_⟩
  · simp [update_max_value, updateMaxNum, h]
  · simp [update_max_value, updateMaxNum]

/-- Witness for the amended C3 at concrete inputs: a string argument fails,
the negative number -5 is accepted and installed after a restart, and the
current max 100 is a no-op. -/
theorem update_max_value_validation_witness :
    update_max_value 0 (PVal.str nonNumS) demoSession
      = Except.error ("Current value " ++ nonNumS ++ " isn't valid.") ∧
    update_max_value 0 (PVal.num (-5)) demoSession
      = Except.ok { restartFn 0 demoSession with max_value := -5 } ∧
    update_max_value 0 (PVal.num demoSession.max_value) demoSession
      = Except.ok demoSession := by
  have h := update_max_value_validation 0 nonNumS (-5) demoSession
  exact ⟨h.1, h.2.1 (by with_unfolding_all decide), h.2.2⟩

/-- C7 counterexample.  A session whose constructor already received the
same variant twice in one batch keeps both copies, and two later add_state
calls with that variant leave two occurrences, not one. -/
theorem add_state_dup_counterexample :
    dupSession.states.count StateTag.loading = 2 ∧
    (add_state (some [StateTag.loading])
        ((add_state (some [StateTag.loading]) dupSession).1)).1.states.count StateTag.loading
      = 2 := by
  constructor <;> with_unfolding_all decide

/-- C7 amended.  Provided the variant occurs at most once in the session
(one batched call may insert duplicates), two add_state calls with it leave
exactly one occurrence; the first call logs the "Added new states!" line
exactly when the variant was genuinely new, the second call logs nothing,
and in general a call logs exactly one line when some passed variant is new
and none when every passed variant is already present. -/
theorem add_state_dedup (s : Session) (v : StateTag) (h : s.states.count v ≤ 1) :
    ((add_state (some [v]) ((add_state (some [v]) s).1)).1.states.count v = 1 ∧
     (add_state (some [v]) s).2.length = (if v ∈ s.states then 0 else 1) ∧
     (add_state (some [v]) ((add_state (some [v]) s).1)).2 = []) ∧
    ∀ (batch : List StateTag) (s2 : Session),
      (add_state (some batch) s2).2.length
        = if batch.all (fun t => s2.states.contains t) then 0 else 1 := by
  have hlog : ∀ (batch : List StateTag) (s2 : Session),
      (add_state (some batch) s2).2.length
        = if batch.all (fun t => s2.states.contains t) then 0 else 1 := by
    intro batch s2
    simp only [add_state, filterAndAddState]
    by_cases hb : (batch.filter (fun t => !(s2.states.contains t))).isEmpty
    · rw [if_pos hb]
      have hall : batch.all (fun t => s2.states.contains t) = true := by
        rw [List.isEmpty_iff, List.filter_eq_nil_iff] at hb
        rw [List.all_eq_true]
        intro t ht
        have := hb t ht
        simpa using this
      simp only [List.length_nil]
      rw [hall]
      simp
    · rw [if_neg hb]
      have hall : batch.all (fun t => s2.states.contains t) = false := by
        rw [Bool.eq_false_iff]
        intro hallT
        apply hb
        rw [List.isEmpty_iff, List.filter_eq_nil_iff]
        intro t ht
        have := List.all_eq_true.1 hallT t ht
        simpa using this
      simp only [List.length_cons, List.length_nil]
      rw [hall]
      simp
  refine ⟨?_, hlog⟩
  by_cases hv : v ∈ s.states
  · have hfix : add_state (some [v]) s = (s, []) := by
      simp only [add_state, filterAndAddState]
      have hf : List.filter (fun t => !(s.states.contains t)) [v] = [] := by
        simp [List.filter, hv]
      rw [hf]
      simp
    have hone : (add_state (some [v]) s).1 = s := by rw [hfix]
    have hcount : s.states.count v = 1 := by
      have h1 : 0 < s.states.count v := List.count_pos_iff.2 hv
      omega
    refine ⟨?_, ?_, ?_⟩
    · rw [hone, hone]
      exact hcount
    · rw [hfix]
      simp [hv]
    · rw [hone, hfix]
  · have hfil : List.filter (fun t => !(s.states.contains t)) [v] = [v] := by
      simp [List.filter, hv]
    have hfirst : add_state (some [v]) s
        = ({ s with states := s.states ++ [v] },
           [Ev.log ("Added new states! " ++ String.intercalate commaS ([v].map stateName))]) := by
      simp only [add_state, filterAndAddState]
      rw [hfil]
      simp
    have hone : (add_state (some [v]) s).1 = { s with states := s.states ++ [v] } := by
      rw [hfirst]
    have hmem2 : v ∈ s.states ++ [v] := by simp
    have hfix2 : add_state (some [v]) ({ s with states := s.states ++ [v] } : Session)
        = ({ s with states := s.states ++ [v] }, []) := by
      simp only [add_state, filterAndAddState]
      have hf : List.filter (fun t => !((s.states ++ [v]).contains t)) [v] = [] := by
        simp [List.filter, hmem2]
      rw [hf]
      simp
    have hzero : s.states.count v = 0 := List.count_eq_zero.2 hv
    refine ⟨?_, ?_, ?_⟩
    · rw [hone, hfix2]
      simp [List.count_append, hzero]
    · rw [hfirst]
      simp [hv]
    · rw [hone, hfix2]

/-- Witness for the amended C7: on the fresh session the loading variant
ends up exactly once after two add_state calls, the first call logs once,
the second logs nothing, and a mixed batch against the fresh session logs
once as the general clause states. -/
theorem add_state_dedup_witness :
    ((add_state (some [StateTag.loading])
        ((add_state (some [StateTag.loading]) demoSession).1)).1.states.count StateTag.loading
          = 1 ∧
     (add_state (some [StateTag.loading]) demoSession).2.length
        = (if StateTag.loading ∈ demoSession.states then 0 else 1) ∧
     (add_state (some [StateTag.loading])
        ((add_state (some [StateTag.loading]) demoSession).1)).2 = []) ∧
    (add_state (some [StateTag.bar, StateTag.loading]) demoSession).2.length
      = if [StateTag.bar, StateTag.loading].all (fun t => demoSession.states.contains t)
        then 0 else 1 := by
  have h := add_state_dedup demoSession StateTag.loading (by with_unfolding_all decide)
  exact ⟨h.1, h.2 [StateTag.bar, StateTag.loading] demoSession⟩

/-- Running the generator loop with one call more than there are elements:
every element is yielded, one advance event per element carries the running
index, and the final call emits the stop. -/
theorem genLoop_exhaust {α : Type} (now : ℚ) :
    ∀ (xs : List α) (s : Session), s.started = true → ∀ i : Nat,
      (genLoop now s xs i (xs.length + 1)).1
        = (List.range xs.length).map (fun j : Nat => Ev.advance ((i + j : Nat) : ℚ)) ++ [Ev.stop] ∧
      (genLoop now s xs i (xs.length + 1)).2.2 = xs := by
  intro xs
  induction xs with
  | nil => intro s hs i; exact ⟨rfl, rfl⟩
  | cons x rest ih =>
    intro s hs i
    have hinner := ih ((statesView now s (i : ℚ)).1)
      (by rw [statesView_started]; exact hs) (i + 1)
    have hmap : (List.range (rest.length + 1)).map (fun j : Nat => Ev.advance ((i + j : Nat) : ℚ))
        = Ev.advance ((i : Nat) : ℚ)
          :: (List.range rest.length).map (fun j : Nat => Ev.advance ((i + 1 + j : Nat) : ℚ)) := by
      rw [List.range_succ_eq_map, List.map_cons, List.map_map]
      refine congrArg₂ _ (by norm_num) ?_
      refine congrArg (fun f => List.map f (List.range rest.length)) ?_
      funext j
      refine congrArg Ev.advance ?_
      push_cast
      ring
    constructor
    · simp only [List.length_cons, genLoop, hs, if_true]
      rw [hmap]
      simp only [List.cons_append]
      refine congrArg₂ _ rfl ?_
      exact hinner.1
    · simp only [List.length_cons, genLoop, hs, if_true]
      exact congrArg₂ _ rfl hinner.2

/-- Running the generator loop for k calls with at least k elements left:
one advance per yielded element and no stop event. -/
theorem genLoop_take {α : Type} (now : ℚ) :
    ∀ (k : Nat) (xs : List α) (s : Session), s.started = true → k ≤ xs.length → ∀ i : Nat,
      (genLoop now s xs i k).1
        = (List.range k).map (fun j : Nat => Ev.advance ((i + j : Nat) : ℚ)) ∧
      (genLoop now s xs i k).2.2 = xs.take k := by
  intro k
  induction k with
  | zero =>
    intro xs s hs hk i
    cases xs <;> exact ⟨rfl, rfl⟩
  | succ k ih =>
    intro xs s hs hk i
    cases xs with
    | nil => simp at hk
    | cons x rest =>
      have hk' : k ≤ rest.length := by simpa using hk
      have hinner := ih rest ((statesView now s (i : ℚ)).1)
        (by rw [statesView_started]; exact hs) hk' (i + 1)
      have hmap : (List.range (k + 1)).map (fun j : Nat => Ev.advance ((i + j : Nat) : ℚ))
          = Ev.advance ((i : Nat) : ℚ)
            :: (List.range k).map (fun j : Nat => Ev.advance ((i + 1 + j : Nat) : ℚ)) := by
        rw [List.range_succ_eq_map, List.map_cons, List.map_map]
        refine congrArg₂ _ (by norm_num) ?_
        refine congrArg (fun f => List.map f (List.range k)) ?_
        funext j
        refine congrArg Ev.advance ?_
        push_cast
        ring
      constructor
      · simp only [genLoop, hs, if_true]
        rw [hmap]
        simp only [List.cons_append]
        refine congrArg₂ _ rfl ?_
        simpa using hinner.1
      · simp only [genLoop, hs, if_true, List.take_succ_cons]
        exact congrArg₂ _ rfl hinner.2

/-- C2 amended.  Consuming the sequence adapter to exhaustion emits start
first, then one advance per element carrying the 0-based index, then one
stop; abandoning consumption after k of the elements (at least one) emits
start and the k advances but never the stop, because the generator has no
cleanup handler. -/
theorem iterator_trace {α : Type} (now : ℚ) (s : Session) (xs : List α) (k : Nat) :
    ((runGen now s xs (xs.length + 1)).1
        = Ev.start :: ((List.range xs.length).map (fun j : Nat => Ev.advance (j : ℚ)) ++ [Ev.stop]) ∧
     (runGen now s xs (xs.length + 1)).2.2 = xs) ∧
    (1 ≤ k → k ≤ xs.length →
      (runGen now s xs k).1 = Ev.start :: (List.range k).map (fun j : Nat => Ev.advance (j : ℚ)) ∧
      (runGen now s xs k).2.2 = xs.take k) := by
  have hcast : ∀ n : Nat, (List.range n).map (fun j : Nat => Ev.advance ((0 + j : Nat) : ℚ))
      = (List.range n).map (fun j : Nat => Ev.advance (j : ℚ)) := by
    intro n
    refine congrArg (fun f => List.map f (List.range n)) ?_
    funext j
    simp
  constructor
  · have h := genLoop_exhaust now xs (startFn now s) (startFn_started now s) 0
    constructor
    · show Ev.start :: (genLoop now (startFn now s) xs 0 (xs.length + 1)).1 = _
      rw [h.1, hcast]
    · show (genLoop now (startFn now s) xs 0 (xs.length + 1)).2.2 = _
      exact h.2
  · intro h1 hk
    match k, h1 with
    | k + 1, _ =>
      have h := genLoop_take now (k + 1) xs (startFn now s) (startFn_started now s) hk 0
      constructor
      · show Ev.start :: (genLoop now (startFn now s) xs 0 (k + 1)).1 = _
        rw [h.1, hcast]
      · show (genLoop now (startFn now s) xs 0 (k + 1)).2.2 = _
        exact h.2

/-- C2 counterexample.  Consuming only 2 of the 3 wrapped elements emits
start and the two advances but no stop event at all, refuting the claim
that early termination still calls stop. -/
theorem iterator_early_no_stop :
    (runGen 0 demoSession [(10 : ℚ), 20, 30] 2).1 = [Ev.start, Ev.advance 0, Ev.advance 1] ∧
    Ev.stop ∉ (runGen 0 demoSession [(10 : ℚ), 20, 30] 2).1 := by
  constructor <;> with_unfolding_all decide

/-- Witness for the amended C2: the wrapped list [10, 20, 30] consumed to
exhaustion gives start, advance 0 1 2, stop and yields every element;
consumed for only two calls it gives start, advance 0 1, yields the first
two elements and no stop. -/
theorem iterator_trace_witness :
    ((runGen 0 demoSession [(10 : ℚ), 20, 30] 4).1
        = Ev.start :: ((List.range 3).map (fun j : Nat => Ev.advance (j : ℚ)) ++ [Ev.stop]) ∧
     (runGen 0 demoSession [(10 : ℚ), 20, 30] 4).2.2 = [(10 : ℚ), 20, 30]) ∧
    ((runGen 0 demoSession [(10 : ℚ), 20, 30] 2).1
        = Ev.start :: (List.range 2).map (fun j : Nat => Ev.advance (j : ℚ)) ∧
     (runGen 0 demoSession [(10 : ℚ), 20, 30] 2).2.2 = [(10 : ℚ), 20, 30].take 2) := by
  have h := iterator_trace 0 demoSession [(10 : ℚ), 20, 30] 2
  exact ⟨h.1, h.2 (by decide) (by decide)⟩

/-- Python int() of a nonnegative rational is its floor. -/
theorem pyInt_nonneg (q : ℚ) (h : 0 ≤ q) : pyInt q = ⌊q⌋ := by
  unfold pyInt
  rw [if_neg (not_lt.2 h), ratFloor_eq]

/-- C5 counterexample.  At zero percent the bar of the source separates the
arrow from the closing delimiter with 29 two-space blocks, not with 29
single spaces as the claim words it. -/
theorem bar_blanks_counterexample :
    tagDisplay .bar mZero ≠ claimedBarDisplay 0 ∧
    tagDisplay .bar mZero = "[" ++ ">" ++ strRepeat dblSpaceS 29 ++ "]" := by
  constructor <;> with_unfolding_all decide

/-- C5 amended.  For percent between 0 and 100, the bar display is the
opening delimiter, floor(percent/100 * 30) fill characters, the arrow, then
that many two-space blanks short of 29, and the closing delimiter; the
filled length never exceeds 30, and done is the fully filled bar with no
arrow. -/
theorem bar_render (m : Metrics) (h0 : 0 ≤ m.percentV) (h1 : m.percentV ≤ 100) :
    tagDisplay .bar m
      = "[" ++ strRepeat eqBarS (⌊m.percentV / 100 * 30⌋).toNat ++ ">"
          ++ strRepeat dblSpaceS (29 - (⌊m.percentV / 100 * 30⌋).toNat) ++ "]" ∧
    (⌊m.percentV / 100 * 30⌋).toNat ≤ 30 ∧
    tagDone .bar m = "[==============================]" := by
  have hq0 : 0 ≤ m.percentV / 100 * 30 := by positivity
  have hpy : pyInt (proportional m.percentV 30) = ⌊m.percentV / 100 * 30⌋ :=
    pyInt_nonneg _ hq0
  have hfl0 : 0 ≤ ⌊m.percentV / 100 * 30⌋ := Int.floor_nonneg.2 hq0
  have hfl30 : ⌊m.percentV / 100 * 30⌋ ≤ 30 := by
    have hle : m.percentV / 100 * 30 ≤ 30 := by
      have h2 : m.percentV / 100 ≤ 1 := (div_le_one (by norm_num)).2 h1
      calc m.percentV / 100 * 30 ≤ 1 * 30 :=
            mul_le_mul_of_nonneg_right h2 (by norm_num)
        _ = 30 := by norm_num
    have : ⌊m.percentV / 100 * 30⌋ ≤ ⌊(30 : ℚ)⌋ := Int.floor_le_floor hle
    simpa using this
  refine ⟨?_, ?_, ?_⟩
  · simp only [tagDisplay, barDisplay, pyRepeat]
    rw [hpy]
    have hsub : ((30 : ℤ) - ⌊m.percentV / 100 * 30⌋ - 1).toNat
        = 29 - (⌊m.percentV / 100 * 30⌋).toNat := by omega
    rw [hsub]
  · omega
  · with_unfolding_all rfl

/-- Witness for the amended C5 at zero percent: no fill characters, 29
two-space blocks, and the fully filled done bar. -/
theorem bar_render_witness :
    tagDisplay .bar mZero
      = "[" ++ strRepeat eqBarS (⌊mZero.percentV / 100 * 30⌋).toNat ++ ">"
          ++ strRepeat dblSpaceS (29 - (⌊mZero.percentV / 100 * 30⌋).toNat) ++ "]" ∧
    (⌊mZero.percentV / 100 * 30⌋).toNat ≤ 30 ∧
    tagDone .bar mZero = "[==============================]" :=
  bar_render mZero (by with_unfolding_all decide) (by with_unfolding_all decide)

/-- Decimal digit counts of small naturals, by exhaustive evaluation. -/
theorem reprLen_le_three : ∀ n : Nat, n < 101 → (Nat.repr n).length ≤ 3 := by decide

/-- One decimal digit below ten. -/
theorem reprLen_one : ∀ n : Nat, n < 10 → (Nat.repr n).length = 1 := by decide

/-- Two decimal digits from ten up to ninety-nine. -/
theorem reprLen_two : ∀ n : Nat, n < 100 → 10 ≤ n → (Nat.repr n).length = 2 := by decide

/-- The fixed-two-decimals rendering of a percent value below 100 is at most
6 characters long (at most 3 integer digits, the point, two decimals). -/
theorem toFixed2_len_le (q : ℚ) (h0 : 0 ≤ q) (h1 : q < 100) :
    (toFixed2 q).length ≤ 6 := by
  have hfl : Rat.floor (q * 100 + 1 / 2) < 10001 := by
    rw [ratFloor_eq]
    refine Int.floor_lt.2 ?_
    push_cast
    linarith
  have hnat : (Rat.floor (q * 100 + 1 / 2)).toNat ≤ 10000 := by omega
  have hip : (Rat.floor (q * 100 + 1 / 2)).toNat / 100 < 101 := by omega
  have hfr : (Rat.floor (q * 100 + 1 / 2)).toNat % 100 < 100 := Nat.mod_lt _ (by norm_num)
  simp only [toFixed2, String.length_append]
  have hipLen := reprLen_le_three _ hip
  by_cases hsmall : (Rat.floor (q * 100 + 1 / 2)).toNat % 100 < 10
  · rw [if_pos hsmall]
    have := reprLen_one _ hsmall
    simp only [String.length_append, this]
    have hd : dotS.length = 1 := rfl
    have hz : zeroS.length = 1 := rfl
    omega
  · rw [if_neg hsmall]
    have := reprLen_two _ hfr (by omega)
    simp only [this]
    have hd : dotS.length = 1 := rfl
    omega

/-- C6 counterexample.  At zero percent the source renders "000.00%": six
characters before the percent sign, not the six zero digits of the claim's
example "000000.00%". -/
theorem percent_pad_counterexample :
    tagDisplay .percentSt mZero = "000.00%" ∧
    tagDisplay .percentSt mZero ≠ "000000.00%" := by
  constructor <;> with_unfolding_all decide

/-- C6 amended.  For percent in [0, 100), the percent field is the
two-decimal rendering left-zero-padded to 6 characters before the percent
sign, so the whole field is always exactly 7 characters; done is always
"100.00%". -/
theorem percent_render (m : Metrics) (h0 : 0 ≤ m.percentV) (h1 : m.percentV < 100) :
    tagDisplay .percentSt m
      = strRepeat zeroS (6 - (toFixed2 m.percentV).length) ++ toFixed2 m.percentV ++ "%" ∧
    (tagDisplay .percentSt m).length = 7 ∧
    tagDone .percentSt m = "100.00%" := by
  have hlen : (toFixed2 m.percentV).length ≤ 6 := toFixed2_len_le m.percentV h0 h1
  have heq : tagDisplay .percentSt m
      = strRepeat zeroS (6 - (toFixed2 m.percentV).length) ++ toFixed2 m.percentV ++ "%" := by
    simp only [tagDisplay, percentDisplay, pyRepeat]
    have hsub : ((6 : ℤ) - ((toFixed2 m.percentV).length : ℤ)).toNat
        = 6 - (toFixed2 m.percentV).length := by omega
    rw [hsub]
  refine ⟨heq, ?_, ?_⟩
  · rw [heq]
    simp only [String.length_append, strRepeat_length]
    have hz : zeroS.length = 1 := rfl
    have hp : ("%" : String).length = 1 := rfl
    rw [hz, hp, Nat.mul_one]
    omega
  · with_unfolding_all rfl

/-- Witness for the amended C6 at zero percent: the field is the padded
"000.00%" of length 7 and done is "100.00%". -/
theorem percent_render_witness :
    tagDisplay .percentSt mZero
      = strRepeat zeroS (6 - (toFixed2 mZero.percentV).length) ++ toFixed2 mZero.percentV ++ "%" ∧
    (tagDisplay .percentSt mZero).length = 7 ∧
    tagDone .percentSt mZero = "100.00%" :=
  percent_render mZero (by with_unfolding_all decide) (by with_unfolding_all decide)

end Cereja
